import Mathlib

/-!
Verification development for the AI-Drag-Racing repository.

The definitions below are shallow embeddings of the repository's
TypeScript source:

* `splitBlank`, `streamSSE`, `streamOpenAIResponse` — the two SSE stream
  decoders (`utils/providers/cerebras.ts` function `streamSSE`, and
  `utils/providers/zhipu.ts` / `moonshot.ts` function
  `streamOpenAIResponse`).  Reads are modelled as the text chunks
  produced by `TextDecoder('utf-8', {stream:true})`, i.e. lists of
  characters; `JSON.parse` (a platform builtin, not repository code) is
  modelled as an abstract total function `List Char → Option J` where a
  `none` result stands for a thrown parse error.
* `generate`-related definitions — the shared body of the provider
  adapters' `generate` async generators.
* `appReducer`, `laneLoop`, `laneConsume`, `laneRun`, `startRace` — the
  orchestrator in `pages/index.tsx` (`appReducer` and
  `handleRunComparison`).  `Date.now()` readings are threaded in
  explicitly as natural-number timestamps.
-/

namespace DragRace

/-- JS `s.split('\n\n')` over character lists: scan left to right, emit a
new segment at every (leftmost, non-overlapping) occurrence of the
blank-line separator `"\n\n"` used by the SSE wire format. -/
def consHead (c : Char) : List (List Char) → List (List Char)
  | [] => [[c]]
  | p :: ps => (c :: p) :: ps

def splitBlank : List Char → List (List Char)
  | [] => [[]]
  | [c] => [[c]]
  | c :: c' :: cs =>
    if c = '\n' ∧ c' = '\n' then [] :: splitBlank cs
    else consHead c (splitBlank (c' :: cs))

/-- `splitBlank` with the last segment set apart: computes
`(parts, parts.pop())` of the JS decoder in one pass, i.e. the fully
delimited segments together with the trailing segment that is still
waiting for its `"\n\n"` terminator. -/
def splitBuf : List Char → List (List Char) × List Char
  | [] => ([], [])
  | [c] => ([], [c])
  | c :: c' :: cs =>
    if c = '\n' ∧ c' = '\n' then ([] :: (splitBuf cs).1, (splitBuf cs).2)
    else
      match splitBuf (c' :: cs) with
      | ([], l) => ([], c :: l)
      | (p :: ps, l) => ((c :: p) :: ps, l)

/-- The six characters of the SSE `"data: "` prefix checked by both
decoders (`part.startsWith('data: ')`). -/
def dataTag : List Char := ['d', 'a', 't', 'a', ':', ' ']

/-- The literal terminator payload `"[DONE]"`. -/
def doneLit : List Char := ['[', 'D', 'O', 'N', 'E', ']']

/-- JS whitespace test used by `String.prototype.trim` (restricted to the
whitespace characters that can occur in an SSE line). -/
def isWSChar (c : Char) : Bool := c = ' ' || c = '\n' || c = '\t' || c = '\r'

/-- JS `s.trim()`: strip whitespace from both ends. -/
def trimChars (s : List Char) : List Char :=
  ((s.dropWhile isWSChar).reverse.dropWhile isWSChar).reverse

/-- Body of the inner `for (const part of parts)` loop of the buffered
decoder `streamSSE` in `cerebras.ts` (lines 23–33): for each segment with
the `data: ` prefix, strip the prefix, trim, end the stream on `[DONE]`,
otherwise try to parse and skip segments that fail to parse.  Returns the
parsed objects together with a flag recording whether `[DONE]` was hit. -/
def ssePartsC {J : Type} (parse : List Char → Option J) :
    List (List Char) → List J × Bool
  | [] => ([], false)
  | part :: rest =>
    if dataTag.isPrefixOf part then
      let data := trimChars (part.drop 6)
      if data = doneLit then ([], true)
      else
        match parse data with
        | some j =>
          let r := ssePartsC parse rest
          (j :: r.1, r.2)
        | none => ssePartsC parse rest
    else ssePartsC parse rest

/-- The buffered decoder `streamSSE` of `cerebras.ts` (lines 12–35),
threading the explicit `buffer` that carries the split tail across
reads: `buffer += decoder.decode(value); const parts = buffer.split('\n\n');
buffer = parts.pop() || '';`. -/
def streamSSEFrom {J : Type} (parse : List Char → Option J) :
    List Char → List (List Char) → List J
  | _, [] => []
  | buffer, r :: rs =>
    let parts := splitBlank (buffer ++ r)
    let out := ssePartsC parse parts.dropLast
    if out.2 then out.1
    else out.1 ++ streamSSEFrom parse (parts.getLastD []) rs

def streamSSE {J : Type} (parse : List Char → Option J)
    (reads : List (List Char)) : List J :=
  streamSSEFrom parse [] reads

/-- Body of the inner `for (const line of lines)` loop of the unbuffered
decoder `streamOpenAIResponse` in `zhipu.ts` (lines 52–64): same shape as
`ssePartsC` except that the payload is parsed untrimmed (only the
`[DONE]` comparison trims). -/
def ssePartsZ {J : Type} (parse : List Char → Option J) :
    List (List Char) → List J × Bool
  | [] => ([], false)
  | part :: rest =>
    if dataTag.isPrefixOf part then
      let data := part.drop 6
      if trimChars data = doneLit then ([], true)
      else
        match parse data with
        | some j =>
          let r := ssePartsZ parse rest
          (j :: r.1, r.2)
        | none => ssePartsZ parse rest
    else ssePartsZ parse rest

/-- The unbuffered decoder `streamOpenAIResponse` of `zhipu.ts`
(lines 37–66): each read is split on `'\n\n'` in isolation; no buffer is
carried from one read to the next. -/
def streamOpenAIResponse {J : Type} (parse : List Char → Option J) :
    List (List Char) → List J
  | [] => []
  | r :: rs =>
    let out := ssePartsZ parse (splitBlank r)
    if out.2 then out.1
    else out.1 ++ streamOpenAIResponse parse rs

/-- A toy stand-in for `JSON.parse` used in concrete counterexamples: it
accepts exactly the two JSON texts `[1,2]` and `[3,4]` appearing in the
failing input and rejects everything else (in particular every fragment
of a payload that was cut by a read boundary). -/
def demoParse (s : List Char) : Option Nat :=
  if s = ("[1,2]").toList then some 1
  else if s = ("[3,4]").toList then some 2
  else none

/-! ## Data model (`providerService` types as used throughout the source) -/

/-- `CompletionMetrics` (timestamps are `Date.now()` readings in ms).
`firstTokenTime` is `undefined` until the first non-empty chunk;
`inputTokens`/`outputTokens` are optional fields — the synthesized
metrics object in `pages/index.tsx` omits `inputTokens`. -/
structure CompletionMetrics where
  startTime : Nat
  firstTokenTime : Option Nat
  finishTime : Nat
  tokenCount : Nat
  inputTokens : Option Nat
  outputTokens : Option Nat
deriving DecidableEq, Repr

/-- `CompletionResult`: the normalized event yielded by every adapter's
`generate` — either an incremental text chunk or the terminal metrics. -/
inductive CompletionResult where
  | chunk (content : String)
  | metrics (data : CompletionMetrics)
deriving DecidableEq, Repr

def CompletionResult.isMetricsEv : CompletionResult → Bool
  | .chunk _ => false
  | .metrics _ => true

/-- `reasoningEffort` values accepted by the adapters. -/
inductive ReasoningEffort where
  | low | medium | high
deriving DecidableEq, Repr

/-- `ModelSettings` (`temperature`/`topP` are JS numbers, modelled as
rationals; only their propagation matters to the claims, never float
arithmetic). -/
structure ModelSettings where
  temperature : Rat
  maxTokens : Nat
  topP : Rat
  reasoningEffort : Option ReasoningEffort := none
deriving DecidableEq, Repr

/-- `RaceMode` from `components/sidebar/RaceSettings.tsx`. -/
inductive RaceMode where
  | drag | token_limit | time_limit | free_for_all
deriving DecidableEq, Repr

/-- `RaceConfig` from `components/sidebar/RaceSettings.tsx` (`tokenLimit`
and `timeLimit` are optional; the UI uses integer values). -/
structure RaceConfig where
  mode : RaceMode
  tokenLimit : Option Nat := none
  timeLimit : Option Nat := none
  modelSettings : ModelSettings
deriving DecidableEq, Repr

/-- JS truthiness of an optional number (`undefined` and `0` are falsy);
used for `tokenLimit &&`, `timeLimit &&` and `!firstTokenTime`. -/
def truthyNum : Option Nat → Bool
  | none => false
  | some n => !(n = 0)

/-- JS falsiness of an optional string (`undefined` and `''` are falsy);
used for `if (!apiKey)`. -/
def falsyStr : Option String → Bool
  | none => true
  | some s => s = ""

/-- JS `s.includes(pat)`: does `pat` occur contiguously in `s`? -/
def hasSub (pat : List Char) : List Char → Bool
  | [] => pat.isPrefixOf []
  | c :: cs => pat.isPrefixOf (c :: cs) || hasSub pat cs

/-! ## Token Metrics Estimator (`utils/tokens.ts` — not present under
`src/`, modelled from the spec) -/

/-- Modelled from the spec: `approxTokensFromText` of the missing
`utils/tokens.ts` — "derives approximate input/output token counts from
raw text ... using a fixed character-to-token heuristic"; the heuristic
is taken to be one token per four characters, rounded up, which gives
`approxTokensFromText "" = 0` and nonnegative counts as §8 requires. -/
def approxTokensFromText (s : String) : Nat := (s.length + 3) / 4

/-- Modelled from the spec: `finalTokenTotal` of the missing
`utils/tokens.ts` — "computes a combined running total" over the prompt
and the generated text (the adapters call it as
`finalTokenTotal({ prompt, generated })`). -/
def finalTokenTotal (prompt generated : String) : Nat :=
  approxTokensFromText prompt + approxTokensFromText generated

/-! ## Provider adapter `generate` (shared body of `cerebras.ts`
lines 51–102, `zhipu.ts` lines 77–136, `moonshot.ts` lines 82–140) -/

/-- The adapter's mutable loop state: `firstTokenTime`, `tokenCount`,
`generatedText`. -/
structure GenState where
  firstTokenTime : Option Nat
  tokenCount : Nat
  generatedText : String
deriving DecidableEq, Repr

def genInit : GenState := ⟨none, 0, ""⟩

/-- One iteration of `for await (const chunk of stream)`: `delta` is the
extracted `chunk.choices[0]?.delta?.content` (where `none` stands for an
absent field) and `now` is the `Date.now()` reading of that iteration.
JS `if (content)` skips both absent and empty deltas;
`if (!firstTokenTime) firstTokenTime = Date.now()` records the first
token time when the stored value is falsy. -/
def genStep (st : GenState) (delta : Option String) (now : Nat) :
    GenState × List CompletionResult :=
  match delta with
  | none => (st, [])
  | some c =>
    if c = "" then (st, [])
    else
      (⟨if truthyNum st.firstTokenTime then st.firstTokenTime else some now,
        st.tokenCount + 1, st.generatedText ++ c⟩,
       [CompletionResult.chunk c])

/-- Folding `genStep` over the decoded event stream. -/
def genRun : GenState → List (Option String × Nat) →
    GenState × List CompletionResult
  | st, [] => (st, [])
  | st, (d, t) :: rest =>
    let s1 := genStep st d t
    let s2 := genRun s1.1 rest
    (s2.1, s1.2 ++ s2.2)

/-- How the adapter's decode loop ended: the decoder sequence finished
(`[DONE]` or natural close, with the `Date.now()` reading taken as
`finishTime` after the loop), or the stream was aborted / errored so the
generator propagated an exception out of the loop. -/
inductive StreamEnd where
  | completed (finishTime : Nat)
  | aborted
deriving DecidableEq, Repr

/-- The event sequence yielded by an adapter's `generate`: the chunks
yielded inside the loop, followed — only when the decode loop completed —
by the single terminal metrics event built after the loop. -/
def generate (prompt : String) (startTime : Nat)
    (events : List (Option String × Nat)) (ending : StreamEnd) :
    List CompletionResult :=
  let run := genRun genInit events
  match ending with
  | .completed finishTime =>
    run.2 ++ [CompletionResult.metrics
      { startTime := startTime
        firstTokenTime := run.1.firstTokenTime
        finishTime := finishTime
        tokenCount := finalTokenTotal prompt run.1.generatedText
        inputTokens := some (approxTokensFromText prompt)
        outputTokens := some (approxTokensFromText run.1.generatedText) }]
  | .aborted => run.2

/-! ## The HTTP request built by `zhipu.ts` `generate` (lines 90–109) -/

/-- The fields of the `fetch` call that the claims inspect; `signal` is
the `AbortSignal` argument (`none` = no signal attached to the request),
with signals identified by an abstract numeric id. -/
structure FetchRequest where
  url : String
  bearerKey : String
  model : String
  prompt : String
  stream : Bool
  temperature : Rat
  maxTokensField : Nat
  topP : Rat
  doSample : Bool
  signal : Option Nat
deriving DecidableEq, Repr

/-- The request `zhipu.ts` `generate` passes to `fetch`: sampling
parameters from `settings` with the documented defaults, `do_sample`
added for `thinking` models, and the generator's `signal` parameter
forwarded unchanged. -/
def zhipuRequest (prompt model apiKey : String) (signal : Option Nat)
    (settings : Option ModelSettings) : FetchRequest :=
  { url := ("https://open.bigmodel.cn/api/paas/v4/chat/completions")
    bearerKey := apiKey
    model := model
    prompt := prompt
    stream := true
    temperature := match settings with
      | some st => st.temperature
      | none => 7 / 10
    maxTokensField := match settings with
      | some st => st.maxTokens
      | none => 4096
    topP := match settings with
      | some st => st.topP
      | none => 1
    doSample := hasSub (("thinking").toList) model.toList
    signal := signal }

/-- Modelled from the spec: the Completion Client `streamCompletion` of
the missing `utils/apiClient.ts` — "thin dispatch: ... Delegates to the
adapter's `generate` and re-yields its sequence unchanged".  Its call
site in `pages/index.tsx` (line 202) passes exactly
`(providerId, prompt, modelId, apiKey, modelSettings)`, so the client has
no cancellation signal to hand to the adapter: the `signal` argument of
`generate` is left `undefined`.  This definition records the signal value
that reaches the adapter through that path. -/
def streamCompletionSignal : Option Nat := none

/-! ## Application state and reducer (`pages/index.tsx` lines 17–143) -/

/-- Global race states. -/
inductive RaceState where
  | idle | countingDown | racing | finished
deriving DecidableEq, Repr

/-- `countdownValue : number | 'Go!' | null` (the `null` case is the
`Option.none` of the state field). -/
inductive CountdownValue where
  | num (n : Nat)
  | go
deriving DecidableEq, Repr

/-- `ResultState` from `components/main/ResultsDisplay.tsx`. -/
structure ResultState where
  id : String
  providerName : String
  modelName : String
  responseText : String
  metrics : Option CompletionMetrics
  isLoading : Bool
  error : Option String
deriving DecidableEq, Repr

/-- JS `Record<string, T>` modelled as an association list with unique
keys; `setAssoc` is `{ ...obj, [k]: v }`. -/
def setAssoc {α : Type} (k : String) (v : α) :
    List (String × α) → List (String × α)
  | [] => [(k, v)]
  | (k', v') :: rest =>
    if k' = k then (k, v) :: rest else (k', v') :: setAssoc k v rest

def getAssoc {α : Type} (k : String) : List (String × α) → Option α
  | [] => none
  | (k', v') :: rest => if k' = k then some v' else getAssoc k rest

/-- `AppState` (`pages/index.tsx` lines 17–27). -/
structure AppState where
  prompt : String
  isLoading : Bool
  apiKeys : List (String × String)
  selectedPairs : List (String × String)
  results : List ResultState
  raceState : RaceState
  countdownValue : Option CountdownValue
  enabledProviders : List (String × Bool)
  raceConfig : RaceConfig
deriving DecidableEq, Repr

/-- `AppAction` (`pages/index.tsx` lines 29–43); pairs are
`(providerId, modelId)`. -/
inductive AppAction where
  | setPrompt (p : String)
  | setApiKey (providerId apiKey : String)
  | toggleModelSelection (providerId modelId : String)
  | clearProviderSelections (providerId : String)
  | startComparison (providersToTest : List (String × String))
  | receiveChunk (resultId chunk : String)
  | finishStream (resultId : String) (metrics : CompletionMetrics)
  | setError (resultId error : String)
  | finishComparison
  | setRaceState (s : RaceState)
  | setCountdown (v : Option CountdownValue)
  | setProviderEnabled (providerId : String) (enabled : Bool)
  | resetRace
  | setRaceConfig (config : RaceConfig)
deriving DecidableEq, Repr

/-- The fresh lane created by `START_COMPARISON` for a
`(providerId, modelId)` pair (lines 88–96). -/
def initResult (p : String × String) : ResultState :=
  { id := p.1 ++ ("-") ++ p.2
    providerName := p.1
    modelName := p.2
    responseText := ""
    metrics := none
    isLoading := true
    error := none }

/-- `appReducer` (`pages/index.tsx` lines 66–143), case by case. -/
def appReducer (state : AppState) (action : AppAction) : AppState :=
  match action with
  | .setPrompt p => { state with prompt := p }
  | .setApiKey pid key =>
    { state with apiKeys := setAssoc pid key state.apiKeys }
  | .toggleModelSelection pid mid =>
    let next :=
      if state.selectedPairs.any (fun q => q.1 = pid ∧ q.2 = mid) then
        state.selectedPairs.filter (fun q => !(q.1 = pid ∧ q.2 = mid))
      else state.selectedPairs ++ [(pid, mid)]
    { state with selectedPairs := next }
  | .clearProviderSelections pid =>
    { state with selectedPairs :=
        state.selectedPairs.filter (fun q => !(q.1 = pid)) }
  | .startComparison pairs =>
    { state with isLoading := true, results := pairs.map initResult }
  | .receiveChunk rid chunk =>
    { state with results := state.results.map (fun r =>
        if r.id = rid then { r with responseText := r.responseText ++ chunk }
        else r) }
  | .finishStream rid m =>
    { state with results := state.results.map (fun r =>
        if r.id = rid then { r with isLoading := false, metrics := some m }
        else r) }
  | .setError rid err =>
    { state with results := state.results.map (fun r =>
        if r.id = rid then { r with isLoading := false, error := some err }
        else r) }
  | .finishComparison =>
    { state with isLoading := false, raceState := RaceState.finished,
                 countdownValue := none }
  | .setRaceState s => { state with raceState := s }
  | .setCountdown v => { state with countdownValue := v }
  | .setProviderEnabled pid b =>
    { state with enabledProviders := setAssoc pid b state.enabledProviders }
  | .resetRace =>
    { state with isLoading := false, results := [],
                 raceState := RaceState.idle, countdownValue := none }
  | .setRaceConfig cfg => { state with raceConfig := cfg }

/-- Dispatching a list of actions in order. -/
def applyActions (s : AppState) (l : List AppAction) : AppState :=
  l.foldl appReducer s

/-- The lane result with a given id (lane ids are unique by
construction, one per selected pair). -/
def findResult (rid : String) (s : AppState) : Option ResultState :=
  s.results.find? (fun r => r.id = rid)

/-! ## Race orchestration (`handleRunComparison`, lines 157–256) -/

/-- The start-of-race snapshot (lines 160–162): the selected pairs whose
provider is not individually disabled
(`state.enabledProviders[p.providerId] !== false`).  The API keys are
not consulted here. -/
def eligibleSelected (s : AppState) : List (String × String) :=
  s.selectedPairs.filter (fun p =>
    !(getAssoc p.1 s.enabledProviders = some false))

/-- The state transition performed by the start of `handleRunComparison`
(lines 160–169): return without dispatching when nothing is eligible,
otherwise dispatch `START_COMPARISON` with the snapshot. -/
def startRace (s : AppState) : AppState :=
  if eligibleSelected s = [] then s
  else appReducer s (AppAction.startComparison (eligibleSelected s))

/-- One event delivered to a lane's `for await` loop, paired with the
`Date.now()` reading of that iteration (used by the `time_limit`
check). -/
structure TimedEvent where
  result : CompletionResult
  now : Nat
deriving DecidableEq, Repr

/-- The lane's `for await (const result of stream)` loop
(lines 206–227): before each event, evaluate the active mode's
termination predicate and `break` when it fires; otherwise dispatch
`RECEIVE_CHUNK` (incrementing the local counter) or `FINISH_STREAM`
(setting `sawMetrics`).  The JS test
`(Date.now() - raceStartTime) / 1000 >= timeLimit` is rendered as
`1000 * timeLimit ≤ now - raceStart` (exact for integer limits).
Returns `(dispatched actions, final counter, sawMetrics, broke)`. -/
def laneLoop (cfg : RaceConfig) (raceStart : Nat) (rid : String) :
    Nat → Bool → List TimedEvent → List AppAction × Nat × Bool × Bool
  | cnt, saw, [] => ([], cnt, saw, false)
  | cnt, saw, e :: rest =>
    if cfg.mode = RaceMode.token_limit ∧ truthyNum cfg.tokenLimit ∧
        cfg.tokenLimit.getD 0 ≤ cnt then
      ([], cnt, saw, true)
    else if cfg.mode = RaceMode.time_limit ∧ truthyNum cfg.timeLimit ∧
        1000 * cfg.timeLimit.getD 0 ≤ e.now - raceStart then
      ([], cnt, saw, true)
    else
      match e.result with
      | .chunk c =>
        let r := laneLoop cfg raceStart rid (cnt + 1) saw rest
        (AppAction.receiveChunk rid c :: r.1, r.2)
      | .metrics m =>
        let r := laneLoop cfg raceStart rid cnt true rest
        (AppAction.finishStream rid m :: r.1, r.2)

/-- The metrics object synthesized for a lane whose stream closed
without emitting metrics in a limit mode (lines 232–245): note the
constant-offset `firstTokenTime` and the omitted `inputTokens`. -/
def synthesizeMetrics (raceStart finishTime cnt : Nat) : CompletionMetrics :=
  { startTime := raceStart
    firstTokenTime := some (raceStart + 100)
    finishTime := finishTime
    tokenCount := cnt
    inputTokens := none
    outputTokens := some cnt }

/-- The `if (!sawMetrics)` block after the loop (lines 229–249):
synthesize metrics in the limit modes, otherwise record the
`"Stream ended without metrics"` error. -/
def lanePost (cfg : RaceConfig) (raceStart : Nat) (rid : String)
    (cnt : Nat) (saw : Bool) (synthNow : Nat) : List AppAction :=
  if saw then []
  else if cfg.mode = RaceMode.token_limit ∨ cfg.mode = RaceMode.time_limit then
    [AppAction.finishStream rid (synthesizeMetrics raceStart synthNow cnt)]
  else [AppAction.setError rid ("Stream ended without metrics")]

/-- How a lane's adapter stream ended: the async generator finished, or
it threw (missing body, HTTP error, abort, network failure) after
delivering the listed events, in which case the `catch` branch
(lines 250–252) dispatches `SET_ERROR` with the exception's message. -/
inductive LaneEnding where
  | natural
  | thrown (msg : String)
deriving DecidableEq, Repr

/-- A lane's observable stream behaviour: the events it would deliver,
how it ends after them, and the `Date.now()` reading at the
post-loop synthesis point. -/
structure LaneStream where
  events : List TimedEvent
  ending : LaneEnding
  synthNow : Nat
deriving DecidableEq, Repr

/-- The full per-lane consumption (lines 201–252), given the lane's
stream behaviour: if the loop broke on a limit predicate the remaining
events (and any pending exception) are never consumed and control falls
through to the post-loop block; otherwise the ending decides between the
post-loop block and the `catch` branch. -/
def laneConsume (cfg : RaceConfig) (raceStart : Nat) (rid : String)
    (ls : LaneStream) : List AppAction :=
  let r := laneLoop cfg raceStart rid 0 false ls.events
  if r.2.2.2 then r.1 ++ lanePost cfg raceStart rid r.2.1 r.2.2.1 ls.synthNow
  else
    match ls.ending with
    | .natural => r.1 ++ lanePost cfg raceStart rid r.2.1 r.2.2.1 ls.synthNow
    | .thrown msg => r.1 ++ [AppAction.setError rid msg]

/-- One whole lane of `handleRunComparison` (lines 194–253): the
`resultId` template, the `if (!apiKey)` short-circuit (dispatching
`SET_ERROR 'API Key not set'` before any network call), then the stream
consumption.  The boolean records whether `streamCompletion` — and hence
the network — was ever invoked for this lane. -/
def laneRun (cfg : RaceConfig) (raceStart : Nat)
    (apiKeys : List (String × String)) (pair : String × String)
    (ls : LaneStream) : List AppAction × Bool :=
  let rid := pair.1 ++ ("-") ++ pair.2
  if falsyStr (getAssoc pair.1 apiKeys) then
    ([AppAction.setError rid ("API Key not set")], false)
  else (laneConsume cfg raceStart rid ls, true)

/-- The id targeted by the three per-lane actions. -/
def laneActionId : AppAction → Option String
  | .receiveChunk rid _ => some rid
  | .finishStream rid _ => some rid
  | .setError rid _ => some rid
  | _ => none

/-- The per-result update a lane action performs on its own lane. -/
def actionUpd (a : AppAction) (r : ResultState) : ResultState :=
  match a with
  | .receiveChunk _ chunk => { r with responseText := r.responseText ++ chunk }
  | .finishStream _ m => { r with isLoading := false, metrics := some m }
  | .setError _ err => { r with isLoading := false, error := some err }
  | _ => r

/-- `Interleave l1 l2 l`: `l` is an interleaving of `l1` and `l2`
(preserving the internal order of each).  The event-loop scheduling of
the two concurrently-consumed lanes of `Promise.all` produces some such
interleaving of their dispatch sequences. -/
inductive Interleave {α : Type} : List α → List α → List α → Prop where
  | nil : Interleave [] [] []
  | left {l1 l2 l : List α} (a : α) :
      Interleave l1 l2 l → Interleave (a :: l1) l2 (a :: l)
  | right {l1 l2 l : List α} (b : α) :
      Interleave l1 l2 l → Interleave l1 (b :: l2) (b :: l)

/-- Concatenation of the chunk contents dispatched to a lane. -/
def joinStr (cs : List String) : String := cs.foldl (· ++ ·) ""

/-- All fields of `AppState` other than `results` agree. -/
def sameButResults (s t : AppState) : Prop :=
  t.prompt = s.prompt ∧ t.isLoading = s.isLoading ∧ t.apiKeys = s.apiKeys ∧
  t.selectedPairs = s.selectedPairs ∧ t.raceState = s.raceState ∧
  t.countdownValue = s.countdownValue ∧
  t.enabledProviders = s.enabledProviders ∧ t.raceConfig = s.raceConfig

/-- The metrics record computed by `generate` on the one-chunk stream
`[(some "a", 5)]` with `startTime 0` / `finishTime 10` (used as a
concrete witness input). -/
def mWit : CompletionMetrics :=
  { startTime := 0, firstTokenTime := some 5, finishTime := 10,
    tokenCount := 2, inputTokens := some 1, outputTokens := some 1 }

/-- A concrete drag-mode race configuration (witness input). -/
def cfgW : RaceConfig :=
  { mode := RaceMode.drag, tokenLimit := some 500, timeLimit := some 30,
    modelSettings := { temperature := 0, maxTokens := 2048, topP := 1 } }

/-- Witness lane stream for a keyless lane (never consumed). -/
def lsW1 : LaneStream :=
  { events := [], ending := LaneEnding.natural, synthNow := 0 }

/-- Witness lane stream: one chunk, then the adapter's metrics. -/
def lsW2 : LaneStream :=
  { events := [{ result := CompletionResult.chunk ("hi"), now := 10 },
               { result := CompletionResult.metrics mWit, now := 20 }],
    ending := LaneEnding.natural, synthNow := 25 }

/-- A concrete application state: one selected, enabled pair whose
provider has no stored API key. -/
def sC8 : AppState :=
  { prompt := ("write a story")
    isLoading := false
    apiKeys := []
    selectedPairs := [(("openai"), ("gpt-4o"))]
    results := []
    raceState := RaceState.idle
    countdownValue := none
    enabledProviders := []
    raceConfig :=
      { mode := RaceMode.drag
        tokenLimit := some 500
        timeLimit := some 30
        modelSettings :=
          { temperature := 7 / 10, maxTokens := 2048, topP := 1 } } }

/-! # Theorems

## Splitting lemmas: how JS `split('\n\n')` behaves across a read
boundary -/

theorem splitBuf_cons₂_nil {c c' : Char} {cs l : List Char}
    (hc : ¬(c = '\n' ∧ c' = '\n')) (h : splitBuf (c' :: cs) = ([], l)) :
    splitBuf (c :: c' :: cs) = ([], c :: l) := by
  simp only [splitBuf, if_neg hc, h]

theorem splitBuf_cons₂_cons {c c' : Char} {cs l : List Char}
    {p : List Char} {ps : List (List Char)}
    (hc : ¬(c = '\n' ∧ c' = '\n')) (h : splitBuf (c' :: cs) = (p :: ps, l)) :
    splitBuf (c :: c' :: cs) = ((c :: p) :: ps, l) := by
  simp only [splitBuf, if_neg hc, h]

theorem splitBuf_init_nil (s : List Char) (h : (splitBuf s).1 = []) :
    (splitBuf s).2 = s := by
  induction s using splitBlank.induct with
  | case1 => rfl
  | case2 c => rfl
  | case3 c c' cs hc ih =>
    simp only [splitBuf, if_pos hc] at h
    exact absurd h (List.cons_ne_nil _ _)
  | case4 c c' cs hc ih =>
    rcases hs : splitBuf (c' :: cs) with ⟨I, L⟩
    cases I with
    | nil =>
      rw [splitBuf_cons₂_nil hc hs]
      have := ih (by rw [hs])
      rw [hs] at this
      simp only at this
      rw [this]
    | cons p ps =>
      rw [splitBuf_cons₂_cons hc hs] at h
      simp at h

theorem splitBlank_eq_splitBuf (s : List Char) :
    splitBlank s = (splitBuf s).1 ++ [(splitBuf s).2] := by
  induction s using splitBlank.induct with
  | case1 => rfl
  | case2 c => rfl
  | case3 c c' cs hc ih =>
    simp only [splitBlank, splitBuf, if_pos hc, ih, List.cons_append]
  | case4 c c' cs hc ih =>
    rcases hs : splitBuf (c' :: cs) with ⟨I, L⟩
    rw [hs] at ih
    simp only at ih
    cases I with
    | nil =>
      rw [splitBlank, if_neg hc, splitBuf_cons₂_nil hc hs, ih]
      simp [consHead]
    | cons p ps =>
      rw [splitBlank, if_neg hc, splitBuf_cons₂_cons hc hs, ih]
      simp [consHead]

theorem splitBuf_append (x y : List Char) :
    splitBuf (x ++ y) =
      ((splitBuf x).1 ++ (splitBuf ((splitBuf x).2 ++ y)).1,
       (splitBuf ((splitBuf x).2 ++ y)).2) := by
  induction x using splitBlank.induct with
  | case1 => simp [splitBuf]
  | case2 c => simp [splitBuf]
  | case3 c c' cs hc ih =>
    have e1 : ((c :: c' :: cs) ++ y) = c :: c' :: (cs ++ y) := rfl
    rw [e1]
    simp only [splitBuf, if_pos hc, ih]
    simp
  | case4 c c' cs hc ih =>
    have e2 : (c' :: cs) ++ y = c' :: (cs ++ y) := rfl
    rcases hs : splitBuf (c' :: cs) with ⟨I, L⟩
    rw [hs] at ih
    simp only at ih
    cases I with
    | nil =>
      have hL : L = c' :: cs := by
        have := splitBuf_init_nil (c' :: cs) (by rw [hs])
        rw [hs] at this
        exact this
      rw [splitBuf_cons₂_nil hc hs]
      simp only [List.nil_append]
      subst hL
      rfl
    | cons p ps =>
      rw [splitBuf_cons₂_cons hc hs]
      have e1 : ((c :: c' :: cs) ++ y) = c :: c' :: (cs ++ y) := rfl
      rw [e1]
      rcases hs2 : splitBuf (L ++ y) with ⟨I2, L2⟩
      rw [hs2] at ih
      simp only at ih
      show splitBuf (c :: c' :: (cs ++ y)) = (((c :: p) :: ps) ++ I2, L2)
      rw [List.cons_append]
      exact splitBuf_cons₂_cons hc ih

/-! ## The buffered decoder is insensitive to read boundaries -/

theorem ssePartsC_cons_skip {J : Type} {parse : List Char → Option J}
    {part : List Char} {rest : List (List Char)}
    (hp : ¬dataTag.isPrefixOf part = true) :
    ssePartsC parse (part :: rest) = ssePartsC parse rest := by
  simp [ssePartsC, hp]

theorem ssePartsC_cons_done {J : Type} {parse : List Char → Option J}
    {part : List Char} {rest : List (List Char)}
    (hp : dataTag.isPrefixOf part = true)
    (hd : trimChars (part.drop 6) = doneLit) :
    ssePartsC parse (part :: rest) = ([], true) := by
  simp [ssePartsC, hp, hd]

theorem ssePartsC_cons_some {J : Type} {parse : List Char → Option J}
    {part : List Char} {rest : List (List Char)} {j : J}
    (hp : dataTag.isPrefixOf part = true)
    (hd : ¬trimChars (part.drop 6) = doneLit)
    (hj : parse (trimChars (part.drop 6)) = some j) :
    ssePartsC parse (part :: rest) =
      (j :: (ssePartsC parse rest).1, (ssePartsC parse rest).2) := by
  simp [ssePartsC, hp, hd, hj]

theorem ssePartsC_cons_none {J : Type} {parse : List Char → Option J}
    {part : List Char} {rest : List (List Char)}
    (hp : dataTag.isPrefixOf part = true)
    (hd : ¬trimChars (part.drop 6) = doneLit)
    (hj : parse (trimChars (part.drop 6)) = none) :
    ssePartsC parse (part :: rest) = ssePartsC parse rest := by
  simp [ssePartsC, hp, hd, hj]

theorem ssePartsC_append {J : Type} (parse : List Char → Option J)
    (A B : List (List Char)) :
    ssePartsC parse (A ++ B) =
      if (ssePartsC parse A).2 then ssePartsC parse A
      else ((ssePartsC parse A).1 ++ (ssePartsC parse B).1,
            (ssePartsC parse B).2) := by
  induction A with
  | nil => simp [ssePartsC]
  | cons part rest ih =>
    rw [List.cons_append]
    by_cases hp : dataTag.isPrefixOf part
    · by_cases hd : trimChars (part.drop 6) = doneLit
      · rw [ssePartsC_cons_done hp hd, ssePartsC_cons_done hp hd]
        simp
      · cases hj : parse (trimChars (part.drop 6)) with
        | some j =>
          rw [ssePartsC_cons_some hp hd hj, ssePartsC_cons_some hp hd hj, ih]
          by_cases h2 : (ssePartsC parse rest).2
          · simp [h2]
          · simp [h2]
        | none =>
          rw [ssePartsC_cons_none hp hd hj, ssePartsC_cons_none hp hd hj, ih]
    · rw [ssePartsC_cons_skip hp, ssePartsC_cons_skip hp, ih]

theorem streamSSEFrom_cons {J : Type} (parse : List Char → Option J)
    (buffer r : List Char) (rs : List (List Char)) :
    streamSSEFrom parse buffer (r :: rs) =
      if (ssePartsC parse (splitBuf (buffer ++ r)).1).2 then
        (ssePartsC parse (splitBuf (buffer ++ r)).1).1
      else
        (ssePartsC parse (splitBuf (buffer ++ r)).1).1 ++
          streamSSEFrom parse (splitBuf (buffer ++ r)).2 rs := by
  show (let parts := splitBlank (buffer ++ r);
        let out := ssePartsC parse parts.dropLast;
        if out.2 then out.1
        else out.1 ++ streamSSEFrom parse (parts.getLastD []) rs) = _
  simp only [splitBlank_eq_splitBuf, List.dropLast_concat, List.getLastD_concat]

theorem streamSSEFrom_collapse {J : Type} (parse : List Char → Option J)
    (buffer r1 r2 : List Char) (rs : List (List Char)) :
    streamSSEFrom parse buffer (r1 :: r2 :: rs) =
      streamSSEFrom parse buffer ((r1 ++ r2) :: rs) := by
  rw [streamSSEFrom_cons, streamSSEFrom_cons, streamSSEFrom_cons]
  rw [show buffer ++ (r1 ++ r2) = (buffer ++ r1) ++ r2 by
    rw [List.append_assoc]]
  rw [splitBuf_append (buffer ++ r1) r2]
  rw [ssePartsC_append]
  by_cases h1 : (ssePartsC parse (splitBuf (buffer ++ r1)).1).2
  · simp [h1]
  · simp only [h1, if_false]
    by_cases h2 :
        (ssePartsC parse (splitBuf ((splitBuf (buffer ++ r1)).2 ++ r2)).1).2
    · simp [h2]
    · simp [h2, List.append_assoc]

theorem streamSSEFrom_collapse_all {J : Type} (parse : List Char → Option J) :
    ∀ (rs : List (List Char)) (buffer r : List Char),
    streamSSEFrom parse buffer (r :: rs) =
      streamSSEFrom parse buffer [r ++ List.flatten rs] := by
  intro rs
  induction rs with
  | nil => intro buffer r; simp [List.flatten]
  | cons r2 rest ih =>
    intro buffer r
    rw [streamSSEFrom_collapse, ih, List.flatten_cons, List.append_assoc]

/-- Claim C1, buffered half: the buffered decoder `streamSSE` of
`cerebras.ts` yields, for every partition of the decoded text into
reads, exactly what it yields when the whole text arrives in a single
read — for every parse function and even for ill-formed streams. -/
theorem streamSSE_split_invariant {J : Type} (parse : List Char → Option J)
    (reads : List (List Char)) :
    streamSSE parse reads = streamSSE parse [List.flatten reads] := by
  cases reads with
  | nil => rfl
  | cons r rs => exact streamSSEFrom_collapse_all parse rs [] r

/-- Claim C1 (counterexample): the unbuffered decoder
`streamOpenAIResponse` of `zhipu.ts` is *not* insensitive to read
boundaries.  On the well-formed SSE stream
`"data: [1,2]\n\ndata: [3,4]\n\n"` delivered as the two reads
`"data: [1,"` / `"2]\n\ndata: [3,4]\n\n"` (a split in the middle of the
first data line) it yields only the second object, while a single read
yields both; the buffered `streamSSE` yields both under either
delivery. -/
theorem c1_counterexample :
    streamOpenAIResponse demoParse
      [("data: [1,").toList, ("2]\n\ndata: [3,4]\n\n").toList] = [2] ∧
    streamOpenAIResponse demoParse
      [("data: [1,2]\n\ndata: [3,4]\n\n").toList] = [1, 2] ∧
    streamSSE demoParse
      [("data: [1,").toList, ("2]\n\ndata: [3,4]\n\n").toList] = [1, 2] ∧
    streamSSE demoParse
      [("data: [1,2]\n\ndata: [3,4]\n\n").toList] = [1, 2] := by
  refine ⟨?_, ?_, ?_, ?_⟩ <;> decide

/-! ## Claim C4: malformed payloads are skipped, not fatal -/

theorem splitBuf_data_line (x : List Char) (t : List Char)
    (hI : (splitBuf x).1 = []) (hlast : x.getLast? ≠ some '\n') :
    splitBuf (x ++ '\n' :: '\n' :: t) =
      (x :: (splitBuf t).1, (splitBuf t).2) := by
  induction x using splitBlank.induct with
  | case1 =>
    simp only [List.nil_append]
    simp [splitBuf]
  | case2 c =>
    have hcn : ¬(c = '\n') := by
      intro h
      exact hlast (by simp [h])
    have hc : ¬(c = '\n' ∧ ('\n' : Char) = '\n') := by
      intro h
      exact hcn h.1
    have hsep : splitBuf ('\n' :: '\n' :: t) =
        ([] :: (splitBuf t).1, (splitBuf t).2) := by
      simp [splitBuf]
    exact splitBuf_cons₂_cons hc hsep
  | case3 c c' cs hc ih =>
    simp only [splitBuf, if_pos hc] at hI
    exact absurd hI (List.cons_ne_nil _ _)
  | case4 c c' cs hc ih =>
    rcases hs : splitBuf (c' :: cs) with ⟨I, L⟩
    cases I with
    | cons p ps =>
      rw [splitBuf_cons₂_cons hc hs] at hI
      simp at hI
    | nil =>
      have hI' : (splitBuf (c' :: cs)).1 = [] := by rw [hs]
      have hlast' : (c' :: cs).getLast? ≠ some '\n' := by
        rwa [List.getLast?_cons_cons] at hlast
      have ihr := ih hI' hlast'
      have e : (c' :: cs) ++ '\n' :: '\n' :: t =
          c' :: (cs ++ '\n' :: '\n' :: t) := rfl
      rw [e] at ihr
      show splitBuf (c :: c' :: (cs ++ '\n' :: '\n' :: t)) = _
      exact splitBuf_cons₂_cons hc ihr

theorem ssePartsZ_cons_skip {J : Type} {parse : List Char → Option J}
    {part : List Char} {rest : List (List Char)}
    (hp : ¬dataTag.isPrefixOf part = true) :
    ssePartsZ parse (part :: rest) = ssePartsZ parse rest := by
  simp [ssePartsZ, hp]

theorem ssePartsZ_cons_some {J : Type} {parse : List Char → Option J}
    {part : List Char} {rest : List (List Char)} {j : J}
    (hp : dataTag.isPrefixOf part = true)
    (hd : ¬trimChars (part.drop 6) = doneLit)
    (hj : parse (part.drop 6) = some j) :
    ssePartsZ parse (part :: rest) =
      (j :: (ssePartsZ parse rest).1, (ssePartsZ parse rest).2) := by
  simp [ssePartsZ, hp, hd, hj]

theorem ssePartsZ_cons_none {J : Type} {parse : List Char → Option J}
    {part : List Char} {rest : List (List Char)}
    (hp : dataTag.isPrefixOf part = true)
    (hd : ¬trimChars (part.drop 6) = doneLit)
    (hj : parse (part.drop 6) = none) :
    ssePartsZ parse (part :: rest) = ssePartsZ parse rest := by
  simp [ssePartsZ, hp, hd, hj]

theorem dataTag_drop (p : List Char) : (dataTag ++ p).drop 6 = p := by
  have h : dataTag.length = 6 := rfl
  rw [← h, List.drop_left]

theorem dataTag_startsWith (p : List Char) :
    dataTag.isPrefixOf (dataTag ++ p) = true :=
  List.isPrefixOf_iff_prefix.mpr (List.prefix_append _ _)

/-- Claim C4: in both decoders, a `data:` segment whose payload fails to
parse is skipped without ending the stream: on a well-formed stream of
three data lines whose middle payload is malformed (the two outer ones
parse, the middle one does not; none is the `[DONE]` literal; each data
line is free of internal blank-line separators and does not end in a
newline), both decoders yield exactly the two well-formed objects. -/
theorem c4_malformed_skipped {J : Type} (parse : List Char → Option J)
    (pa pb pc : List Char) (ja jc : J)
    (hja : parse pa = some ja) (hjb : parse pb = none)
    (hjc : parse pc = some jc)
    (ta : trimChars pa = pa) (tb : trimChars pb = pb)
    (tc : trimChars pc = pc)
    (da : ¬pa = doneLit) (db : ¬pb = doneLit) (dc : ¬pc = doneLit)
    (na : (splitBuf (dataTag ++ pa)).1 = [])
    (nb : (splitBuf (dataTag ++ pb)).1 = [])
    (nc : (splitBuf (dataTag ++ pc)).1 = [])
    (la : (dataTag ++ pa).getLast? ≠ some '\n')
    (lb : (dataTag ++ pb).getLast? ≠ some '\n')
    (lc : (dataTag ++ pc).getLast? ≠ some '\n') :
    streamSSE parse
      [(dataTag ++ pa) ++ '\n' :: '\n' ::
        ((dataTag ++ pb) ++ '\n' :: '\n' ::
          ((dataTag ++ pc) ++ ['\n', '\n']))] = [ja, jc] ∧
    streamOpenAIResponse parse
      [(dataTag ++ pa) ++ '\n' :: '\n' ::
        ((dataTag ++ pb) ++ '\n' :: '\n' ::
          ((dataTag ++ pc) ++ ['\n', '\n']))] = [ja, jc] := by
  have e3 : (dataTag ++ pc) ++ ['\n', '\n'] =
      (dataTag ++ pc) ++ '\n' :: '\n' :: ([] : List Char) := rfl
  have hsb : splitBuf
      ((dataTag ++ pa) ++ '\n' :: '\n' ::
        ((dataTag ++ pb) ++ '\n' :: '\n' ::
          ((dataTag ++ pc) ++ ['\n', '\n']))) =
      ([dataTag ++ pa, dataTag ++ pb, dataTag ++ pc], []) := by
    rw [splitBuf_data_line _ _ na la]
    rw [splitBuf_data_line _ _ nb lb]
    rw [e3, splitBuf_data_line _ _ nc lc]
    rfl
  have hda : trimChars ((dataTag ++ pa).drop 6) = pa := by
    rw [dataTag_drop, ta]
  have hdb : trimChars ((dataTag ++ pb).drop 6) = pb := by
    rw [dataTag_drop, tb]
  have hdc : trimChars ((dataTag ++ pc).drop 6) = pc := by
    rw [dataTag_drop, tc]
  have hparts : ssePartsC parse [dataTag ++ pa, dataTag ++ pb, dataTag ++ pc]
      = ([ja, jc], false) := by
    rw [ssePartsC_cons_some (dataTag_startsWith pa) (by rw [hda]; exact da)
      (by rw [hda]; exact hja)]
    rw [ssePartsC_cons_none (dataTag_startsWith pb) (by rw [hdb]; exact db)
      (by rw [hdb]; exact hjb)]
    rw [ssePartsC_cons_some (dataTag_startsWith pc) (by rw [hdc]; exact dc)
      (by rw [hdc]; exact hjc)]
    rfl
  constructor
  · rw [streamSSE, streamSSEFrom_cons]
    simp only [List.nil_append, hsb]
    rw [hparts]
    simp [streamSSEFrom]
  · have hpartsZ : ssePartsZ parse
        [dataTag ++ pa, dataTag ++ pb, dataTag ++ pc, []]
        = ([ja, jc], false) := by
      rw [ssePartsZ_cons_some (dataTag_startsWith pa) (by rw [hda]; exact da)
        (by rw [dataTag_drop]; exact hja)]
      rw [ssePartsZ_cons_none (dataTag_startsWith pb) (by rw [hdb]; exact db)
        (by rw [dataTag_drop]; exact hjb)]
      rw [ssePartsZ_cons_some (dataTag_startsWith pc) (by rw [hdc]; exact dc)
        (by rw [dataTag_drop]; exact hjc)]
      rw [ssePartsZ_cons_skip (by decide)]
      rfl
    show (let out := ssePartsZ parse (splitBlank _);
          if out.2 then out.1 else out.1 ++ streamOpenAIResponse parse []) = _
    rw [splitBlank_eq_splitBuf, hsb]
    simp only [List.cons_append, List.nil_append]
    rw [hpartsZ]
    simp [streamOpenAIResponse]

/-- Claim C4 witness: the scenario instantiated with the payloads
`[1,2]`, `nope`, `[3,4]` and the toy parse function. -/
theorem c4_witness :
    streamSSE demoParse
      [(dataTag ++ ("[1,2]").toList) ++ '\n' :: '\n' ::
        ((dataTag ++ ("nope").toList) ++ '\n' :: '\n' ::
          ((dataTag ++ ("[3,4]").toList) ++ ['\n', '\n']))] = [1, 2] ∧
    streamOpenAIResponse demoParse
      [(dataTag ++ ("[1,2]").toList) ++ '\n' :: '\n' ::
        ((dataTag ++ ("nope").toList) ++ '\n' :: '\n' ::
          ((dataTag ++ ("[3,4]").toList) ++ ['\n', '\n']))] = [1, 2] :=
  c4_malformed_skipped demoParse _ _ _ 1 2 (by decide) (by decide) (by decide)
    (by decide) (by decide) (by decide) (by decide) (by decide) (by decide)
    (by decide) (by decide) (by decide) (by decide) (by decide) (by decide)

/-- Claim C9: the `AbortSignal` reaching the provider's `fetch`.  The
adapter itself forwards its `signal` parameter to the request, but the
orchestrator's call `streamCompletion(providerId, prompt, modelId,
apiKey, modelSettings)` supplies no signal, so every request dispatched
through `handleRunComparison` carries none — an external cancellation
has nothing to abort with. -/
theorem c9_no_signal_reaches_fetch (prompt model apiKey : String)
    (settings : Option ModelSettings) :
    (zhipuRequest prompt model apiKey streamCompletionSignal settings).signal
        = none ∧
    ∀ sig : Nat,
      (zhipuRequest prompt model apiKey (some sig) settings).signal
        = some sig :=
  ⟨rfl, fun _ => rfl⟩

/-! ## Adapter event-stream shape (claims C2 and C3) -/

theorem genStep_chunks (st : GenState) (d : Option String) (t : Nat) :
    ∀ e ∈ (genStep st d t).2, e.isMetricsEv = false := by
  cases d with
  | none => intro e he; simp [genStep] at he
  | some c =>
    by_cases hc : c = ""
    · intro e he; simp [genStep, hc] at he
    · intro e he
      simp [genStep, hc] at he
      rw [he]
      rfl

theorem genRun_all_chunks :
    ∀ (evs : List (Option String × Nat)) (st : GenState),
    ∀ e ∈ (genRun st evs).2, e.isMetricsEv = false := by
  intro evs
  induction evs with
  | nil => intro st e he; simp [genRun] at he
  | cons p rest ih =>
    intro st e he
    obtain ⟨d, t⟩ := p
    rw [genRun] at he
    simp only [List.mem_append] at he
    rcases he with h | h
    · exact genStep_chunks st d t e h
    · exact ih _ e h

theorem metrics_last_aux (C : List CompletionResult)
    (mEv : CompletionResult)
    (hC : ∀ e ∈ C, e.isMetricsEv = false) :
    ∀ (l : List CompletionResult) (e : CompletionResult)
      (r : List CompletionResult),
      C ++ [mEv] = l ++ e :: r → e.isMetricsEv = true → r = [] := by
  induction C with
  | nil =>
    intro l e r h he
    cases l with
    | nil =>
      simp only [List.nil_append] at h
      injection h with h1 h2
      exact h2.symm
    | cons x l' =>
      simp only [List.nil_append, List.cons_append] at h
      injection h with h1 h2
      exact absurd h2.symm (List.append_ne_nil_of_right_ne_nil _
        (List.cons_ne_nil _ _))
  | cons a C' ih =>
    intro l e r h he
    cases l with
    | nil =>
      simp only [List.nil_append, List.cons_append] at h
      injection h with h1 h2
      rw [← h1] at he
      rw [hC a (by simp)] at he
      exact absurd he (by simp)
    | cons x l' =>
      simp only [List.cons_append] at h
      injection h with h1 h2
      exact ih (fun e' he' => hC e' (by simp [he'])) l' e r h2 he

/-- Claim C3: every adapter `generate` sequence contains at most one
metrics event; any metrics event is the final element (so every chunk
precedes it and nothing follows it); and a stream aborted before
completion contains no metrics event at all. -/
theorem c3_metrics_terminal (prompt : String) (t0 : Nat)
    (events : List (Option String × Nat)) (ending : StreamEnd) :
    (generate prompt t0 events ending).countP
        (fun e => e.isMetricsEv) ≤ 1 ∧
    (∀ (l : List CompletionResult) (e : CompletionResult)
        (r : List CompletionResult),
      generate prompt t0 events ending = l ++ e :: r →
      e.isMetricsEv = true → r = []) ∧
    (ending = StreamEnd.aborted →
      (generate prompt t0 events ending).countP
        (fun e => e.isMetricsEv) = 0) := by
  cases ending with
  | aborted =>
    have hz : (generate prompt t0 events StreamEnd.aborted).countP
        (fun e => e.isMetricsEv) = 0 := by
      rw [List.countP_eq_zero]
      intro e he
      simp only [generate] at he
      simp [genRun_all_chunks events genInit e he]
    refine ⟨by rw [hz]; exact Nat.zero_le 1, ?_, fun _ => hz⟩
    intro l e r h he
    have hmem : e ∈ generate prompt t0 events StreamEnd.aborted := by
      rw [h]; simp
    have : e.isMetricsEv = false := by
      simp only [generate] at hmem
      exact genRun_all_chunks events genInit e hmem
    rw [this] at he
    exact absurd he (by simp)
  | completed fin =>
    have hgen : generate prompt t0 events (StreamEnd.completed fin) =
        (genRun genInit events).2 ++
          [CompletionResult.metrics
            { startTime := t0
              firstTokenTime := (genRun genInit events).1.firstTokenTime
              finishTime := fin
              tokenCount := finalTokenTotal prompt
                (genRun genInit events).1.generatedText
              inputTokens := some (approxTokensFromText prompt)
              outputTokens := some (approxTokensFromText
                (genRun genInit events).1.generatedText) }] := rfl
    have hcnt : (generate prompt t0 events (StreamEnd.completed fin)).countP
        (fun e => e.isMetricsEv) = 1 := by
      rw [hgen, List.countP_append]
      have h0 : (genRun genInit events).2.countP
          (fun e => e.isMetricsEv) = 0 := by
        rw [List.countP_eq_zero]
        intro e he
        simp [genRun_all_chunks events genInit e he]
      rw [h0]
      rfl
    refine ⟨by rw [hcnt], ?_, fun h => by cases h⟩
    intro l e r h he
    rw [hgen] at h
    exact metrics_last_aux _ _ (genRun_all_chunks events genInit) l e r h he

/-- Claim C3 witness: an aborted single-chunk stream carries no metrics
event. -/
theorem c3_witness :
    (generate ("p") 0 [(some ("hi"), 5)] StreamEnd.aborted).countP
      (fun e => e.isMetricsEv) = 0 :=
  (c3_metrics_terminal ("p") 0 [(some ("hi"), 5)] StreamEnd.aborted).2.2 rfl

theorem genRun_firstTokenTime :
    ∀ (evs : List (Option String × Nat)) (st : GenState),
    (genRun st evs).1.firstTokenTime = st.firstTokenTime ∨
    ∃ p ∈ evs, (genRun st evs).1.firstTokenTime = some p.2 := by
  intro evs
  induction evs with
  | nil => intro st; left; rfl
  | cons p rest ih =>
    intro st
    obtain ⟨d, t⟩ := p
    have hproj : (genRun st ((d, t) :: rest)).1 =
        (genRun (genStep st d t).1 rest).1 := rfl
    have hstep : (genStep st d t).1.firstTokenTime = st.firstTokenTime ∨
        (genStep st d t).1.firstTokenTime = some t := by
      cases d with
      | none => left; rfl
      | some c =>
        by_cases hc : c = ""
        · left; simp [genStep, hc]
        · by_cases ht : truthyNum st.firstTokenTime
          · left; simp [genStep, hc, ht]
          · right; simp [genStep, hc, ht]
    rcases ih (genStep st d t).1 with h | ⟨q, hq, hfq⟩
    · rcases hstep with h2 | h2
      · left; rw [hproj, h, h2]
      · right
        refine ⟨(d, t), by simp, ?_⟩
        rw [hproj, h, h2]
    · right
      refine ⟨q, by simp [hq], ?_⟩
      rw [hproj]
      exact hfq

theorem generate_metrics_eq (prompt : String) (t0 fin : Nat)
    (events : List (Option String × Nat)) (m : CompletionMetrics)
    (hm : CompletionResult.metrics m ∈
      generate prompt t0 events (StreamEnd.completed fin)) :
    m = { startTime := t0
          firstTokenTime := (genRun genInit events).1.firstTokenTime
          finishTime := fin
          tokenCount := finalTokenTotal prompt
            (genRun genInit events).1.generatedText
          inputTokens := some (approxTokensFromText prompt)
          outputTokens := some (approxTokensFromText
            (genRun genInit events).1.generatedText) } := by
  simp only [generate, List.mem_append, List.mem_singleton] at hm
  rcases hm with h | h
  · have := genRun_all_chunks events genInit _ h
    exact absurd this (by simp [CompletionResult.isMetricsEv])
  · simp only [CompletionResult.metrics.injEq] at h
    exact h

/-- Claim C2 (amended): the timestamp chain
`startTime ≤ firstTokenTime ≤ finishTime` holds unconditionally for
every metrics event yielded by an adapter's `generate` under a monotone
clock; for the orchestrator's synthesized metrics, `startTime ≤
firstTokenTime` always holds, but `firstTokenTime ≤ finishTime` holds
only when the cutoff happens at least 100 ms after the race start
(`firstTokenTime` is hard-coded to `raceStart + 100`). -/
theorem c2_amended (prompt : String) (t0 fin : Nat)
    (events : List (Option String × Nat)) (m : CompletionMetrics)
    (raceStart now cnt : Nat) :
    (CompletionResult.metrics m ∈
        generate prompt t0 events (StreamEnd.completed fin) →
      (∀ p ∈ events, t0 ≤ p.2 ∧ p.2 ≤ fin) →
      ∀ f, m.firstTokenTime = some f →
        m.startTime ≤ f ∧ f ≤ m.finishTime) ∧
    ((synthesizeMetrics raceStart now cnt).firstTokenTime
        = some (raceStart + 100) ∧
     (synthesizeMetrics raceStart now cnt).startTime ≤ raceStart + 100 ∧
     (raceStart + 100 ≤ now →
       ∀ f, (synthesizeMetrics raceStart now cnt).firstTokenTime = some f →
         (synthesizeMetrics raceStart now cnt).startTime ≤ f ∧
         f ≤ (synthesizeMetrics raceStart now cnt).finishTime)) := by
  constructor
  · intro hm ht f hf
    have hmeq := generate_metrics_eq prompt t0 fin events m hm
    subst hmeq
    simp only at hf ⊢
    rcases genRun_firstTokenTime events genInit with h | ⟨q, hq, hfq⟩
    · rw [hf] at h
      exact absurd h.symm (by simp [genInit])
    · rw [hfq] at hf
      injection hf with hf'
      subst hf'
      exact ⟨(ht q hq).1, (ht q hq).2⟩
  · refine ⟨rfl, Nat.le_add_right _ _, ?_⟩
    intro h f hf
    have : f = raceStart + 100 := by
      simp only [synthesizeMetrics] at hf
      injection hf with hf'
      exact hf'.symm
    subst this
    exact ⟨Nat.le_add_right _ _, h⟩

/-- Claim C2 witness: the amended statement evaluated on a one-chunk
completed stream (times 0 ≤ 5 ≤ 10) and on a synthesized-metrics cutoff
150 ms after race start. -/
theorem c2_witness :
    (mWit.startTime ≤ 5 ∧ 5 ≤ mWit.finishTime) ∧
    ((synthesizeMetrics 0 150 3).startTime ≤ 100 ∧
      100 ≤ (synthesizeMetrics 0 150 3).finishTime) :=
  ⟨(c2_amended ("p") 0 10 [(some ("a"), 5)] mWit 0 150 3).1
      (by decide) (by decide) 5 rfl,
   (c2_amended ("p") 0 10 [(some ("a"), 5)] mWit 0 150 3).2.2.2
      (by decide) 100 rfl⟩

/-- Claim C2 counterexample: a reachable orchestrator run (token-limit
mode, limit 1, with a monotone clock) synthesizes a metrics object whose
three timestamps are all present but with
`firstTokenTime = 1100 > 1020 = finishTime`: the loop breaks 20 ms after
the race starts, while `firstTokenTime` is hard-coded to
`raceStart + 100`. -/
theorem c2_counterexample :
    (1000 ≤ 1010 ∧ 1010 ≤ 1020) ∧
    laneConsume
      { mode := RaceMode.token_limit, tokenLimit := some 1,
        timeLimit := none,
        modelSettings := { temperature := 0, maxTokens := 2048, topP := 1 } }
      1000 ("zhipu-glm-4")
      { events := [{ result := CompletionResult.chunk ("a"), now := 1010 },
                   { result := CompletionResult.chunk ("b"), now := 1020 }],
        ending := LaneEnding.natural, synthNow := 1020 } =
      [AppAction.receiveChunk ("zhipu-glm-4") ("a"),
       AppAction.finishStream ("zhipu-glm-4")
         (synthesizeMetrics 1000 1020 1)] ∧
    (synthesizeMetrics 1000 1020 1).startTime = 1000 ∧
    (synthesizeMetrics 1000 1020 1).firstTokenTime = some 1100 ∧
    (synthesizeMetrics 1000 1020 1).finishTime = 1020 ∧
    ¬(1100 ≤ 1020) := by
  refine ⟨by decide, ?_, by decide, by decide, by decide, by decide⟩
  decide

/-! ## Token-limit truncation and synthesized metrics (claims C5, C6) -/

theorem laneLoop_token_break (cfg : RaceConfig) (raceStart : Nat)
    (rid : String) (L : Nat)
    (hm : cfg.mode = RaceMode.token_limit) (hl : cfg.tokenLimit = some L)
    (hL : 0 < L) :
    ∀ (chunks : List (String × Nat)) (cnt : Nat) (saw : Bool)
      (rest : List TimedEvent),
      cnt + chunks.length = L → rest ≠ [] →
      laneLoop cfg raceStart rid cnt saw
        (chunks.map (fun p => { result := CompletionResult.chunk p.1,
                                now := p.2 }) ++ rest) =
        (chunks.map (fun p => AppAction.receiveChunk rid p.1), L, saw,
          true) := by
  intro chunks
  induction chunks with
  | nil =>
    intro cnt saw rest hc hr
    simp only [List.length_nil, Nat.add_zero] at hc
    subst hc
    cases rest with
    | nil => exact absurd rfl hr
    | cons e rest' =>
      simp only [List.map_nil, List.nil_append]
      rw [laneLoop, if_pos]
      exact ⟨hm, by rw [hl]; simp [truthyNum]; omega,
        by rw [hl]; exact Nat.le_refl _⟩
  | cons p chunks' ih =>
    intro cnt saw rest hc hr
    simp only [List.map_cons, List.cons_append, List.length_cons] at hc ⊢
    rw [laneLoop, if_neg, if_neg]
    · rw [ih (cnt + 1) saw rest (by omega) hr]
    · intro h
      rw [hm] at h
      cases h.1
    · intro h
      have h3 := h.2.2
      rw [hl] at h3
      simp only [Option.getD_some] at h3
      omega

/-- Claim C5: in `token_limit` mode with limit `L > 0`, a lane whose
stream would naturally deliver more than `L` chunks (before its metrics
event) is consumed for exactly the first `L` chunks — the loop breaks
once the local counter reaches `L` — and the synthesized metrics carry
`tokenCount = L` and `outputTokens = L`, never the full natural count. -/
theorem c5_token_limit (cfg : RaceConfig) (raceStart : Nat) (rid : String)
    (synthNow L : Nat) (chunks : List (String × Nat))
    (m : CompletionMetrics) (tm : Nat)
    (hm : cfg.mode = RaceMode.token_limit) (hl : cfg.tokenLimit = some L)
    (hL : 0 < L) (hlen : L < chunks.length) :
    laneConsume cfg raceStart rid
      { events := chunks.map (fun p =>
          { result := CompletionResult.chunk p.1, now := p.2 }) ++
          [{ result := CompletionResult.metrics m, now := tm }],
        ending := LaneEnding.natural, synthNow := synthNow } =
      ((chunks.take L).map (fun p => AppAction.receiveChunk rid p.1)) ++
        [AppAction.finishStream rid
          (synthesizeMetrics raceStart synthNow L)] ∧
    (synthesizeMetrics raceStart synthNow L).tokenCount = L ∧
    (synthesizeMetrics raceStart synthNow L).outputTokens = some L ∧
    ((chunks.take L).map
      (fun p => AppAction.receiveChunk rid p.1)).length = L := by
  have htake : (chunks.take L).length = L := by
    rw [List.length_take]
    exact Nat.min_eq_left (Nat.le_of_lt hlen)
  have hev : chunks.map (fun p =>
      ({ result := CompletionResult.chunk p.1, now := p.2 } : TimedEvent)) ++
      [{ result := CompletionResult.metrics m, now := tm }] =
      (chunks.take L).map (fun p =>
        ({ result := CompletionResult.chunk p.1, now := p.2 } :
          TimedEvent)) ++
      ((chunks.drop L).map (fun p =>
        ({ result := CompletionResult.chunk p.1, now := p.2 } :
          TimedEvent)) ++
        [{ result := CompletionResult.metrics m, now := tm }]) := by
    rw [← List.append_assoc, ← List.map_append, List.take_append_drop]
  have hloop := laneLoop_token_break cfg raceStart rid L hm hl hL
    (chunks.take L) 0 false
    ((chunks.drop L).map (fun p =>
      ({ result := CompletionResult.chunk p.1, now := p.2 } :
        TimedEvent)) ++
      [{ result := CompletionResult.metrics m, now := tm }])
    (by rw [htake]; omega) (by simp)
  refine ⟨?_, rfl, rfl, by rw [List.length_map, htake]⟩
  simp only [laneConsume]
  rw [hev, hloop]
  simp [lanePost, hm]

/-- Claim C5 witness: limit 1 against a lane that would naturally
deliver two chunks. -/
theorem c5_witness :
    laneConsume
      { mode := RaceMode.token_limit, tokenLimit := some 1,
        timeLimit := none,
        modelSettings := { temperature := 0, maxTokens := 2048, topP := 1 } }
      0 ("r")
      { events := [(("a"), 10), (("b"), 20)].map (fun p =>
          { result := CompletionResult.chunk p.1, now := p.2 }) ++
          [{ result := CompletionResult.metrics mWit, now := 30 }],
        ending := LaneEnding.natural, synthNow := 40 } =
      (([(("a"), 10), (("b"), 20)].take 1).map
        (fun p => AppAction.receiveChunk ("r") p.1)) ++
        [AppAction.finishStream ("r") (synthesizeMetrics 0 40 1)] ∧
    (synthesizeMetrics 0 40 1).tokenCount = 1 ∧
    (synthesizeMetrics 0 40 1).outputTokens = some 1 ∧
    (([(("a"), 10), (("b"), 20)].take 1).map
      (fun p => AppAction.receiveChunk ("r") p.1)).length = 1 := by
  have h := c5_token_limit
    { mode := RaceMode.token_limit, tokenLimit := some 1,
      timeLimit := none,
      modelSettings := { temperature := 0, maxTokens := 2048, topP := 1 } }
    0 ("r") 40 1 [(("a"), 10), (("b"), 20)] mWit 30
    (by decide) (by decide) (by decide) (by decide)
  exact h

/-- Claim C6: whenever a lane's loop is cut short by a limit-mode
predicate (`broke = true`) before any metrics event was seen
(`sawMetrics = false`), the orchestrator appends exactly one synthesized
`FINISH_STREAM` whose metrics have `startTime` = the global race start,
`finishTime` = the `Date.now()` reading at the synthesis point,
`tokenCount` and `outputTokens` = the local chunk counter, and
`firstTokenTime` = the approximate `raceStart + 100`.  The loop state
(`laneLoop`) carries only the counter and the `sawMetrics` flag — no
real first-token timestamp is ever captured by the orchestrator, so the
approximate value is used exactly in that (always realized) case. -/
theorem c6_synthesized_metrics (cfg : RaceConfig) (raceStart : Nat)
    (rid : String) (ls : LaneStream) (acts : List AppAction) (cnt : Nat)
    (hmode : cfg.mode = RaceMode.token_limit ∨
      cfg.mode = RaceMode.time_limit)
    (hloop : laneLoop cfg raceStart rid 0 false ls.events =
      (acts, cnt, false, true)) :
    laneConsume cfg raceStart rid ls =
      acts ++ [AppAction.finishStream rid
        (synthesizeMetrics raceStart ls.synthNow cnt)] ∧
    (synthesizeMetrics raceStart ls.synthNow cnt).startTime = raceStart ∧
    (synthesizeMetrics raceStart ls.synthNow cnt).finishTime
      = ls.synthNow ∧
    (synthesizeMetrics raceStart ls.synthNow cnt).tokenCount = cnt ∧
    (synthesizeMetrics raceStart ls.synthNow cnt).outputTokens
      = some cnt ∧
    (synthesizeMetrics raceStart ls.synthNow cnt).firstTokenTime
      = some (raceStart + 100) := by
  refine ⟨?_, rfl, rfl, rfl, rfl, rfl⟩
  simp only [laneConsume, hloop]
  have hpost : lanePost cfg raceStart rid cnt false ls.synthNow =
      [AppAction.finishStream rid
        (synthesizeMetrics raceStart ls.synthNow cnt)] := by
    rcases hmode with h | h <;> simp [lanePost, h]
  rw [hpost]
  simp

/-- Claim C6 witness: the token-limit cutoff of the two-chunk lane. -/
theorem c6_witness :
    laneConsume
      { mode := RaceMode.token_limit, tokenLimit := some 1,
        timeLimit := none,
        modelSettings := { temperature := 0, maxTokens := 2048, topP := 1 } }
      1000 ("zhipu-glm-4")
      { events := [{ result := CompletionResult.chunk ("a"), now := 1010 },
                   { result := CompletionResult.chunk ("b"), now := 1020 }],
        ending := LaneEnding.natural, synthNow := 1020 } =
      [AppAction.receiveChunk ("zhipu-glm-4") ("a")] ++
        [AppAction.finishStream ("zhipu-glm-4")
          (synthesizeMetrics 1000 1020 1)] ∧
    (synthesizeMetrics 1000 1020 1).startTime = 1000 ∧
    (synthesizeMetrics 1000 1020 1).finishTime = 1020 ∧
    (synthesizeMetrics 1000 1020 1).tokenCount = 1 ∧
    (synthesizeMetrics 1000 1020 1).outputTokens = some 1 ∧
    (synthesizeMetrics 1000 1020 1).firstTokenTime = some 1100 :=
  c6_synthesized_metrics
    { mode := RaceMode.token_limit, tokenLimit := some 1,
      timeLimit := none,
      modelSettings := { temperature := 0, maxTokens := 2048, topP := 1 } }
    1000 ("zhipu-glm-4")
    { events := [{ result := CompletionResult.chunk ("a"), now := 1010 },
                 { result := CompletionResult.chunk ("b"), now := 1020 }],
      ending := LaneEnding.natural, synthNow := 1020 }
    [AppAction.receiveChunk ("zhipu-glm-4") ("a")] 1
    (Or.inl rfl) (by decide)

/-! ## Reducer frame property (claim C10) and race start (claim C8) -/

/-- Claim C10: the three per-lane actions `RECEIVE_CHUNK`,
`FINISH_STREAM`, `SET_ERROR` touch only the lane result whose id equals
the action's `resultId` — appending the chunk, or setting metrics /
error with `isLoading` cleared — leave every other lane result
unchanged (the mapped function is the identity on them), leave every
non-`results` state field unchanged, and leave the whole state unchanged
when no lane has the targeted id. -/
theorem c10_reducer_frame (s : AppState) (rid chunk err : String)
    (m : CompletionMetrics) :
    ((appReducer s (AppAction.receiveChunk rid chunk)).results =
        s.results.map (fun r => if r.id = rid then
          { r with responseText := r.responseText ++ chunk } else r) ∧
      sameButResults s (appReducer s (AppAction.receiveChunk rid chunk))) ∧
    ((appReducer s (AppAction.finishStream rid m)).results =
        s.results.map (fun r => if r.id = rid then
          { r with isLoading := false, metrics := some m } else r) ∧
      sameButResults s (appReducer s (AppAction.finishStream rid m))) ∧
    ((appReducer s (AppAction.setError rid err)).results =
        s.results.map (fun r => if r.id = rid then
          { r with isLoading := false, error := some err } else r) ∧
      sameButResults s (appReducer s (AppAction.setError rid err))) ∧
    ((∀ r ∈ s.results, ¬r.id = rid) →
      appReducer s (AppAction.receiveChunk rid chunk) = s ∧
      appReducer s (AppAction.finishStream rid m) = s ∧
      appReducer s (AppAction.setError rid err) = s) := by
  have hmap : ∀ f : ResultState → ResultState,
      (∀ r ∈ s.results, ¬r.id = rid) →
      s.results.map (fun r => if r.id = rid then f r else r) = s.results := by
    intro f h
    have h1 : s.results.map (fun r => if r.id = rid then f r else r) =
        s.results.map id :=
      List.map_congr_left (fun r hr => by rw [if_neg (h r hr)]; rfl)
    rw [h1, List.map_id]
  refine ⟨⟨rfl, ?_⟩, ⟨rfl, ?_⟩, ⟨rfl, ?_⟩, ?_⟩
  · exact ⟨rfl, rfl, rfl, rfl, rfl, rfl, rfl, rfl⟩
  · exact ⟨rfl, rfl, rfl, rfl, rfl, rfl, rfl, rfl⟩
  · exact ⟨rfl, rfl, rfl, rfl, rfl, rfl, rfl, rfl⟩
  · intro h
    refine ⟨?_, ?_, ?_⟩
    · show { s with results := s.results.map _ } = s
      rw [hmap _ h]
    · show { s with results := s.results.map _ } = s
      rw [hmap _ h]
    · show { s with results := s.results.map _ } = s
      rw [hmap _ h]

/-- Claim C10 witness: on a state with no lane results, all three
actions are no-ops. -/
theorem c10_witness :
    appReducer sC8 (AppAction.receiveChunk ("x") ("y")) = sC8 ∧
    appReducer sC8 (AppAction.finishStream ("x") mWit) = sC8 ∧
    appReducer sC8 (AppAction.setError ("x") ("boom")) = sC8 :=
  (c10_reducer_frame sC8 ("x") ("y") ("boom") mWit).2.2.2 (by simp [sC8])

/-- Claim C8 counterexample: `handleRunComparison`'s start snapshot does
not consult the API keys.  In the concrete state `sC8` one pair is
selected and enabled but its provider has no key, so the claim's
eligible set (pairs with a key and not disabled) is empty and the start
should be a no-op — yet the code creates a (keyless) lane and changes
the state. -/
theorem c8_counterexample :
    getAssoc ("openai") sC8.apiKeys = none ∧
    sC8.selectedPairs = [(("openai"), ("gpt-4o"))] ∧
    (startRace sC8).results = [initResult ((("openai"), ("gpt-4o")))] ∧
    sC8.results = [] ∧
    ¬startRace sC8 = sC8 := by
  refine ⟨rfl, rfl, ?_, rfl, ?_⟩ <;> decide

/-- Claim C8 (amended): the snapshot taken at race start is the selected
pairs whose provider is not individually disabled — API-key presence is
not part of the filter (keyless lanes are created and then error, see
claim C7).  Starting is a no-op, leaving the state unchanged, exactly
when that disabled-filtered set is empty; otherwise exactly one staging
lane is created per snapshot pair. -/
theorem c8_amended (s : AppState) :
    (eligibleSelected s = [] → startRace s = s) ∧
    (¬eligibleSelected s = [] →
      (startRace s).results = (eligibleSelected s).map initResult ∧
      (startRace s).isLoading = true ∧
      sameButResults { s with isLoading := true } (startRace s)) := by
  constructor
  · intro h
    simp [startRace, h]
  · intro h
    refine ⟨?_, ?_, ?_⟩
    · simp [startRace, h, appReducer]
    · simp [startRace, h, appReducer]
    · simp only [startRace, h, if_false]
      exact ⟨rfl, rfl, rfl, rfl, rfl, rfl, rfl, rfl⟩

/-- Claim C8 witness: the amended statement evaluated on `sC8` (one
enabled keyless pair: one lane is created). -/
theorem c8_witness :
    (startRace sC8).results = (eligibleSelected sC8).map initResult ∧
    (startRace sC8).isLoading = true ∧
    sameButResults { sC8 with isLoading := true } (startRace sC8) :=
  (c8_amended sC8).2 (by decide)

/-! ## Lane isolation under interleaving (claim C7) -/

theorem actionUpd_id (a : AppAction) (r : ResultState) :
    (actionUpd a r).id = r.id := by
  cases a <;> rfl

theorem find?_cons_self {r : ResultState} {l : List ResultState}
    {rid : String} (h : r.id = rid) :
    (r :: l).find? (fun r => r.id = rid) = some r := by
  rw [List.find?_cons]
  simp [h]

theorem find?_cons_other {r : ResultState} {l : List ResultState}
    {rid : String} (h : ¬r.id = rid) :
    (r :: l).find? (fun r => r.id = rid) =
      l.find? (fun r => r.id = rid) := by
  rw [List.find?_cons]
  simp [h]

theorem find_map_upd (rid : String) (upd : ResultState → ResultState)
    (hid : ∀ r, (upd r).id = r.id) :
    ∀ l : List ResultState,
    (l.map (fun r => if r.id = rid then upd r else r)).find?
        (fun r => r.id = rid) =
      (l.find? (fun r => r.id = rid)).map upd := by
  intro l
  induction l with
  | nil => rfl
  | cons r rest ih =>
    by_cases h : r.id = rid
    · rw [List.map_cons, if_pos h, find?_cons_self h,
        find?_cons_self (by rw [hid r]; exact h)]
      rfl
    · rw [List.map_cons, if_neg h, find?_cons_other h, find?_cons_other h,
        ih]

theorem find_map_upd_other (rid rid' : String)
    (upd : ResultState → ResultState)
    (hid : ∀ r, (upd r).id = r.id) (hne : ¬rid' = rid) :
    ∀ l : List ResultState,
    (l.map (fun r => if r.id = rid' then upd r else r)).find?
        (fun r => r.id = rid) =
      l.find? (fun r => r.id = rid) := by
  intro l
  induction l with
  | nil => rfl
  | cons r rest ih =>
    by_cases h : r.id = rid'
    · have h2 : ¬r.id = rid := by
        rw [h]; exact hne
      rw [List.map_cons, if_pos h, find?_cons_other h2,
        find?_cons_other (by rw [hid r]; exact h2), ih]
    · by_cases h3 : r.id = rid
      · rw [List.map_cons, if_neg h, find?_cons_self h3,
          find?_cons_self h3]
      · rw [List.map_cons, if_neg h, find?_cons_other h3,
          find?_cons_other h3, ih]

theorem findResult_reducer_same (s : AppState) (a : AppAction)
    (rid : String) (ha : laneActionId a = some rid) :
    findResult rid (appReducer s a) =
      (findResult rid s).map (actionUpd a) := by
  cases a with
  | receiveChunk rid' chunk =>
    injection ha with ha'
    subst ha'
    exact find_map_upd rid'
      (actionUpd (AppAction.receiveChunk rid' chunk)) (fun r => rfl)
      s.results
  | finishStream rid' m =>
    injection ha with ha'
    subst ha'
    exact find_map_upd rid'
      (actionUpd (AppAction.finishStream rid' m)) (fun r => rfl) s.results
  | setError rid' err =>
    injection ha with ha'
    subst ha'
    exact find_map_upd rid'
      (actionUpd (AppAction.setError rid' err)) (fun r => rfl) s.results
  | setPrompt p => exact absurd ha (by simp [laneActionId])
  | setApiKey p k => exact absurd ha (by simp [laneActionId])
  | toggleModelSelection p mm => exact absurd ha (by simp [laneActionId])
  | clearProviderSelections p => exact absurd ha (by simp [laneActionId])
  | startComparison ps => exact absurd ha (by simp [laneActionId])
  | finishComparison => exact absurd ha (by simp [laneActionId])
  | setRaceState st => exact absurd ha (by simp [laneActionId])
  | setCountdown v => exact absurd ha (by simp [laneActionId])
  | setProviderEnabled p b => exact absurd ha (by simp [laneActionId])
  | resetRace => exact absurd ha (by simp [laneActionId])
  | setRaceConfig cfg => exact absurd ha (by simp [laneActionId])

theorem findResult_reducer_other (s : AppState) (a : AppAction)
    (rid rid' : String) (ha : laneActionId a = some rid')
    (hne : ¬rid' = rid) :
    findResult rid (appReducer s a) = findResult rid s := by
  cases a with
  | receiveChunk r2 chunk =>
    injection ha with ha'
    subst ha'
    exact find_map_upd_other rid r2
      (actionUpd (AppAction.receiveChunk r2 chunk)) (fun r => rfl) hne
      s.results
  | finishStream r2 m =>
    injection ha with ha'
    subst ha'
    exact find_map_upd_other rid r2
      (actionUpd (AppAction.finishStream r2 m)) (fun r => rfl) hne
      s.results
  | setError r2 err =>
    injection ha with ha'
    subst ha'
    exact find_map_upd_other rid r2
      (actionUpd (AppAction.setError r2 err)) (fun r => rfl) hne
      s.results
  | setPrompt p => exact absurd ha (by simp [laneActionId])
  | setApiKey p k => exact absurd ha (by simp [laneActionId])
  | toggleModelSelection p mm => exact absurd ha (by simp [laneActionId])
  | clearProviderSelections p => exact absurd ha (by simp [laneActionId])
  | startComparison ps => exact absurd ha (by simp [laneActionId])
  | finishComparison => exact absurd ha (by simp [laneActionId])
  | setRaceState st => exact absurd ha (by simp [laneActionId])
  | setCountdown v => exact absurd ha (by simp [laneActionId])
  | setProviderEnabled p b => exact absurd ha (by simp [laneActionId])
  | resetRace => exact absurd ha (by simp [laneActionId])
  | setRaceConfig cfg => exact absurd ha (by simp [laneActionId])

theorem findResult_applyActions :
    ∀ (l : List AppAction) (s : AppState) (rid : String),
    (∀ a ∈ l, (laneActionId a).isSome = true) →
    findResult rid (applyActions s l) =
      (findResult rid s).map (fun r =>
        (l.filter (fun a => laneActionId a = some rid)).foldl
          (fun r a => actionUpd a r) r) := by
  intro l
  induction l with
  | nil =>
    intro s rid h
    show findResult rid s = (findResult rid s).map (fun r => r)
    cases findResult rid s <;> rfl
  | cons a rest ih =>
    intro s rid h
    have hstep : applyActions s (a :: rest) =
        applyActions (appReducer s a) rest := rfl
    obtain ⟨rid_a, hra⟩ := Option.isSome_iff_exists.mp (h a (by simp))
    have hrest : ∀ b ∈ rest, (laneActionId b).isSome = true :=
      fun b hb => h b (by simp [hb])
    by_cases he : rid_a = rid
    · subst he
      have hfilter : (a :: rest).filter
          (fun b => laneActionId b = some rid_a) =
          a :: rest.filter (fun b => laneActionId b = some rid_a) := by
        simp [List.filter_cons, hra]
      rw [hstep, ih (appReducer s a) rid_a hrest,
        findResult_reducer_same s a rid_a hra, Option.map_map, hfilter]
      rfl
    · have hfilter : (a :: rest).filter
          (fun b => laneActionId b = some rid) =
          rest.filter (fun b => laneActionId b = some rid) := by
        simp only [List.filter_cons]
        rw [if_neg]
        simp only [decide_eq_true_eq, hra]
        intro hcontra
        injection hcontra with h'
        exact he h'
      rw [hstep, ih (appReducer s a) rid hrest,
        findResult_reducer_other s a rid rid_a hra he, hfilter]

theorem Interleave.symm {α : Type} {l1 l2 l : List α}
    (h : Interleave l1 l2 l) : Interleave l2 l1 l := by
  induction h with
  | nil => exact Interleave.nil
  | left a _ ih => exact Interleave.right a ih
  | right b _ ih => exact Interleave.left b ih

theorem interleave_mem {α : Type} {l1 l2 l : List α}
    (h : Interleave l1 l2 l) : ∀ a ∈ l, a ∈ l1 ∨ a ∈ l2 := by
  induction h with
  | nil => intro a ha; simp at ha
  | left x _ ih =>
    intro a ha
    rcases List.mem_cons.mp ha with h1 | h1
    · left; simp [h1]
    · rcases ih a h1 with h2 | h2
      · left; simp [h2]
      · right; exact h2
  | right x _ ih =>
    intro a ha
    rcases List.mem_cons.mp ha with h1 | h1
    · right; simp [h1]
    · rcases ih a h1 with h2 | h2
      · left; exact h2
      · right; simp [h2]

theorem interleave_filter {α : Type} (p : α → Bool) {l1 l2 l : List α}
    (h : Interleave l1 l2 l) (hp : ∀ b ∈ l2, p b = false) :
    l.filter p = l1.filter p := by
  induction h with
  | nil => rfl
  | left a _ ih =>
    simp only [List.filter_cons]
    rw [ih hp]
  | right b hder ih =>
    have hb : p b = false := hp b (by simp)
    simp only [List.filter_cons, hb]
    exact ih (fun x hx => hp x (by simp [hx]))

theorem laneLoop_targets (cfg : RaceConfig) (raceStart : Nat)
    (rid : String) :
    ∀ (events : List TimedEvent) (cnt : Nat) (saw : Bool),
    ∀ a ∈ (laneLoop cfg raceStart rid cnt saw events).1,
      laneActionId a = some rid := by
  intro events
  induction events with
  | nil => intro cnt saw a ha; simp [laneLoop] at ha
  | cons e rest ih =>
    intro cnt saw a ha
    rw [laneLoop] at ha
    by_cases h1 : cfg.mode = RaceMode.token_limit ∧
        truthyNum cfg.tokenLimit = true ∧ cfg.tokenLimit.getD 0 ≤ cnt
    · rw [if_pos h1] at ha
      simp at ha
    · rw [if_neg h1] at ha
      by_cases h2 : cfg.mode = RaceMode.time_limit ∧
          truthyNum cfg.timeLimit = true ∧
          1000 * cfg.timeLimit.getD 0 ≤ e.now - raceStart
      · rw [if_pos h2] at ha
        simp at ha
      · rw [if_neg h2] at ha
        cases hres : e.result with
        | chunk c =>
          rw [hres] at ha
          simp only [List.mem_cons] at ha
          rcases ha with h | h
          · rw [h]; rfl
          · exact ih (cnt + 1) saw a h
        | metrics m =>
          rw [hres] at ha
          simp only [List.mem_cons] at ha
          rcases ha with h | h
          · rw [h]; rfl
          · exact ih cnt true a h

theorem lanePost_targets (cfg : RaceConfig) (raceStart : Nat)
    (rid : String) (cnt : Nat) (saw : Bool) (synthNow : Nat) :
    ∀ a ∈ lanePost cfg raceStart rid cnt saw synthNow,
      laneActionId a = some rid := by
  intro a ha
  rw [lanePost] at ha
  by_cases h1 : saw = true
  · rw [if_pos h1] at ha
    simp at ha
  · rw [if_neg h1] at ha
    by_cases h2 : cfg.mode = RaceMode.token_limit ∨
        cfg.mode = RaceMode.time_limit
    · rw [if_pos h2] at ha
      simp only [List.mem_singleton] at ha
      rw [ha]; rfl
    · rw [if_neg h2] at ha
      simp only [List.mem_singleton] at ha
      rw [ha]; rfl

theorem laneConsume_targets (cfg : RaceConfig) (raceStart : Nat)
    (rid : String) (ls : LaneStream) :
    ∀ a ∈ laneConsume cfg raceStart rid ls,
      laneActionId a = some rid := by
  intro a ha
  rw [laneConsume] at ha
  by_cases hb : (laneLoop cfg raceStart rid 0 false ls.events).2.2.2 = true
  · rw [if_pos hb] at ha
    rcases List.mem_append.mp ha with h | h
    · exact laneLoop_targets cfg raceStart rid ls.events 0 false a h
    · exact lanePost_targets cfg raceStart rid _ _ _ a h
  · rw [if_neg hb] at ha
    cases hend : ls.ending with
    | natural =>
      rw [hend] at ha
      rcases List.mem_append.mp ha with h | h
      · exact laneLoop_targets cfg raceStart rid ls.events 0 false a h
      · exact lanePost_targets cfg raceStart rid _ _ _ a h
    | thrown msg =>
      rw [hend] at ha
      rcases List.mem_append.mp ha with h | h
      · exact laneLoop_targets cfg raceStart rid ls.events 0 false a h
      · simp only [List.mem_singleton] at h
        rw [h]; rfl

theorem laneRun_targets (cfg : RaceConfig) (raceStart : Nat)
    (apiKeys : List (String × String)) (pair : String × String)
    (ls : LaneStream) :
    ∀ a ∈ (laneRun cfg raceStart apiKeys pair ls).1,
      laneActionId a = some (pair.1 ++ ("-") ++ pair.2) := by
  intro a ha
  rw [laneRun] at ha
  by_cases hk : falsyStr (getAssoc pair.1 apiKeys) = true
  · rw [if_pos hk] at ha
    simp only [List.mem_singleton] at ha
    rw [ha]; rfl
  · rw [if_neg hk] at ha
    exact laneConsume_targets cfg raceStart _ ls a ha

theorem laneLoop_no_limit (cfg : RaceConfig) (raceStart : Nat)
    (rid : String)
    (hm1 : ¬cfg.mode = RaceMode.token_limit)
    (hm2 : ¬cfg.mode = RaceMode.time_limit) :
    ∀ (cts : List (String × Nat)) (cnt : Nat) (saw : Bool)
      (m : CompletionMetrics) (tm : Nat),
    laneLoop cfg raceStart rid cnt saw
      (cts.map (fun p => { result := CompletionResult.chunk p.1,
                           now := p.2 }) ++
        [{ result := CompletionResult.metrics m, now := tm }]) =
      (cts.map (fun p => AppAction.receiveChunk rid p.1) ++
        [AppAction.finishStream rid m], cnt + cts.length, true, false) := by
  intro cts
  induction cts with
  | nil =>
    intro cnt saw m tm
    simp only [List.map_nil, List.nil_append, List.length_nil,
      Nat.add_zero]
    rw [laneLoop, if_neg (fun h => hm1 h.1), if_neg (fun h => hm2 h.1)]
    rfl
  | cons p cts' ih =>
    intro cnt saw m tm
    simp only [List.map_cons, List.cons_append, List.length_cons]
    rw [laneLoop, if_neg (fun h => hm1 h.1), if_neg (fun h => hm2 h.1)]
    rw [ih (cnt + 1) saw m tm]
    have hn : cnt + 1 + cts'.length = cnt + (cts'.length + 1) := by omega
    rw [hn]

theorem foldl_receiveChunks (rid : String) :
    ∀ (cs : List String) (r : ResultState),
    ((cs.map (fun c => AppAction.receiveChunk rid c)).foldl
      (fun r a => actionUpd a r) r) =
      { r with responseText := cs.foldl (· ++ ·) r.responseText } := by
  intro cs
  induction cs with
  | nil => intro r; rfl
  | cons c rest ih =>
    intro r
    simp only [List.map_cons, List.foldl_cons]
    rw [ih]
    rfl

/-- Claim C7: in a two-lane race where exactly one lane's provider has
no stored API key (a falsy lookup), the keyless lane dispatches exactly
one action — `SET_ERROR "API Key not set"` — without ever invoking the
network (`streamCompletion` is never called), so after any event-loop
interleaving of the two lanes' dispatch sequences its result is its
staging lane with `isLoading := false` and that error; the sibling lane
is unaffected: it ends `finished` with its own adapter metrics attached
and its accumulated text, exactly as if it ran alone.  Lane-level
failures are recorded only on the failing lane because every dispatched
action targets its own lane id. -/
theorem c7_keyless_lane_isolated (cfg : RaceConfig) (raceStart : Nat)
    (apiKeys : List (String × String)) (s : AppState)
    (p1 p2 : String × String) (ls1 ls2 : LaneStream)
    (cts : List (String × Nat)) (m : CompletionMetrics) (tm : Nat)
    (l : List AppAction)
    (hm1 : ¬cfg.mode = RaceMode.token_limit)
    (hm2 : ¬cfg.mode = RaceMode.time_limit)
    (hk1 : falsyStr (getAssoc p1.1 apiKeys) = true)
    (hk2 : ¬falsyStr (getAssoc p2.1 apiKeys) = true)
    (hid : ¬p1.1 ++ ("-") ++ p1.2 = p2.1 ++ ("-") ++ p2.2)
    (hev : ls2.events = cts.map (fun p =>
        { result := CompletionResult.chunk p.1, now := p.2 }) ++
        [{ result := CompletionResult.metrics m, now := tm }])
    (hend : ls2.ending = LaneEnding.natural)
    (hint : Interleave (laneRun cfg raceStart apiKeys p1 ls1).1
      (laneRun cfg raceStart apiKeys p2 ls2).1 l) :
    laneRun cfg raceStart apiKeys p1 ls1 =
      ([AppAction.setError (p1.1 ++ ("-") ++ p1.2)
        ("API Key not set")], false) ∧
    findResult (p1.1 ++ ("-") ++ p1.2)
        (applyActions (appReducer s (AppAction.startComparison [p1, p2])) l)
      = some { initResult p1 with
          isLoading := false,
          error := some ("API Key not set") } ∧
    findResult (p2.1 ++ ("-") ++ p2.2)
        (applyActions (appReducer s (AppAction.startComparison [p1, p2])) l)
      = some { id := p2.1 ++ ("-") ++ p2.2, providerName := p2.1,
               modelName := p2.2,
               responseText := (cts.map Prod.fst).foldl (· ++ ·) "",
               metrics := some m, isLoading := false, error := none } := by
  have ha1 : laneRun cfg raceStart apiKeys p1 ls1 =
      ([AppAction.setError (p1.1 ++ ("-") ++ p1.2)
        ("API Key not set")], false) := by
    simp [laneRun, hk1]
  have hloop2 := laneLoop_no_limit cfg raceStart (p2.1 ++ ("-") ++ p2.2)
    hm1 hm2 cts 0 false m tm
  have hc2 : laneConsume cfg raceStart (p2.1 ++ ("-") ++ p2.2) ls2 =
      cts.map (fun p => AppAction.receiveChunk
        (p2.1 ++ ("-") ++ p2.2) p.1) ++
      [AppAction.finishStream (p2.1 ++ ("-") ++ p2.2) m] := by
    simp only [laneConsume, hev, hloop2]
    simp [lanePost, hend]
  have ha2 : (laneRun cfg raceStart apiKeys p2 ls2).1 =
      cts.map (fun p => AppAction.receiveChunk
        (p2.1 ++ ("-") ++ p2.2) p.1) ++
      [AppAction.finishStream (p2.1 ++ ("-") ++ p2.2) m] := by
    simp only [laneRun, hk2]
    simp [hc2]
  have htarg1 : ∀ a ∈ (laneRun cfg raceStart apiKeys p1 ls1).1,
      laneActionId a = some (p1.1 ++ ("-") ++ p1.2) :=
    laneRun_targets cfg raceStart apiKeys p1 ls1
  have htarg2 : ∀ a ∈ (laneRun cfg raceStart apiKeys p2 ls2).1,
      laneActionId a = some (p2.1 ++ ("-") ++ p2.2) :=
    laneRun_targets cfg raceStart apiKeys p2 ls2
  have hall : ∀ a ∈ l, (laneActionId a).isSome = true := by
    intro a ha
    rcases interleave_mem hint a ha with h | h
    · rw [htarg1 a h]; rfl
    · rw [htarg2 a h]; rfl
  have hs0 : (appReducer s (AppAction.startComparison [p1, p2])).results =
      [initResult p1, initResult p2] := rfl
  refine ⟨ha1, ?_, ?_⟩
  · rw [findResult_applyActions l _ _ hall]
    have hfilter : l.filter (fun a =>
        laneActionId a = some (p1.1 ++ ("-") ++ p1.2)) =
        [AppAction.setError (p1.1 ++ ("-") ++ p1.2) ("API Key not set")] := by
      rw [interleave_filter _ hint]
      · rw [ha1]
        simp [laneActionId]
      · intro b hb
        rw [decide_eq_false_iff_not]
        rw [htarg2 b hb]
        intro hcontra
        injection hcontra with h'
        exact hid h'.symm
    rw [hfilter]
    have hfind : findResult (p1.1 ++ ("-") ++ p1.2)
        (appReducer s (AppAction.startComparison [p1, p2])) =
        some (initResult p1) := by
      show ([initResult p1, initResult p2].find? _) = _
      exact find?_cons_self rfl
    rw [hfind]
    rfl
  · rw [findResult_applyActions l _ _ hall]
    have hfilter : l.filter (fun a =>
        laneActionId a = some (p2.1 ++ ("-") ++ p2.2)) =
        (laneRun cfg raceStart apiKeys p2 ls2).1 := by
      rw [interleave_filter _ hint.symm]
      · apply List.filter_eq_self.mpr
        intro b hb
        rw [decide_eq_true_eq]
        exact htarg2 b hb
      · intro b hb
        rw [decide_eq_false_iff_not]
        rw [htarg1 b hb]
        intro hcontra
        injection hcontra with h'
        exact hid h'
    rw [hfilter]
    have hfind : findResult (p2.1 ++ ("-") ++ p2.2)
        (appReducer s (AppAction.startComparison [p1, p2])) =
        some (initResult p2) := by
      show ([initResult p1, initResult p2].find? _) = _
      rw [find?_cons_other hid]
      exact find?_cons_self rfl
    rw [ha2, hfind]
    simp only [Option.map_some']
    have hmm : cts.map (fun p => AppAction.receiveChunk
        (p2.1 ++ ("-") ++ p2.2) p.1) =
        (cts.map Prod.fst).map (fun c => AppAction.receiveChunk
          (p2.1 ++ ("-") ++ p2.2) c) := by
      rw [List.map_map]
      rfl
    rw [List.foldl_append, hmm, foldl_receiveChunks]
    rfl

/-- Claim C7 witness: a concrete two-lane race (providers `a` without a
key, `b` with one) under the sequential interleaving of the two lanes'
dispatches. -/
theorem c7_witness :
    laneRun cfgW 0 [(("b"), ("k"))] ((("a"), ("m1"))) lsW1 =
      ([AppAction.setError (("a" : String) ++ ("-") ++ ("m1"))
        ("API Key not set")], false) ∧
    findResult (("a" : String) ++ ("-") ++ ("m1"))
        (applyActions (appReducer sC8 (AppAction.startComparison
            [(("a"), ("m1")), (("b"), ("m2"))]))
          [AppAction.setError (("a" : String) ++ ("-") ++ ("m1"))
            ("API Key not set"),
           AppAction.receiveChunk (("b" : String) ++ ("-") ++ ("m2")) ("hi"),
           AppAction.finishStream (("b" : String) ++ ("-") ++ ("m2")) mWit])
      = some { initResult ((("a"), ("m1"))) with
          isLoading := false,
          error := some ("API Key not set") } ∧
    findResult (("b" : String) ++ ("-") ++ ("m2"))
        (applyActions (appReducer sC8 (AppAction.startComparison
            [(("a"), ("m1")), (("b"), ("m2"))]))
          [AppAction.setError (("a" : String) ++ ("-") ++ ("m1"))
            ("API Key not set"),
           AppAction.receiveChunk (("b" : String) ++ ("-") ++ ("m2")) ("hi"),
           AppAction.finishStream (("b" : String) ++ ("-") ++ ("m2")) mWit])
      = some { id := ("b" : String) ++ ("-") ++ ("m2"),
               providerName := ("b"), modelName := ("m2"),
               responseText := ([(("hi"), 10)].map Prod.fst).foldl
                 (· ++ ·) "",
               metrics := some mWit, isLoading := false, error := none } :=
  c7_keyless_lane_isolated cfgW 0 [(("b"), ("k"))] sC8
    ((("a"), ("m1"))) ((("b"), ("m2"))) lsW1 lsW2 [(("hi"), 10)] mWit 20
    [AppAction.setError (("a" : String) ++ ("-") ++ ("m1"))
      ("API Key not set"),
     AppAction.receiveChunk (("b" : String) ++ ("-") ++ ("m2")) ("hi"),
     AppAction.finishStream (("b" : String) ++ ("-") ++ ("m2")) mWit]
    (by decide) (by decide) (by decide) (by decide) (by decide) rfl rfl
    (Interleave.left _ (Interleave.right _
      (Interleave.right _ Interleave.nil)))

end DragRace
